import Mathlib

/-!
Verification of the `web-rtc-peer` negotiation core: a shallow embedding of
the Signaling Gate (`bufferizeCandidates`), the Description Mangler
(`removeFIDFromOffer`, `getSimulcastInfo`, `mangleSdpToAddSimulcast`), the
outbound candidate buffering of the `WebRtcPeer` constructor, `processOffer`
and `dispose`, together with theorems settling the specified properties.

SDP payloads and identifiers are modelled as `List Char`; machine strings in
the source are plain JavaScript strings, so this is lossless.
-/

/-! ### Basic data model -/

/-- Remote/local ICE candidates are opaque immutable values; we model them by
an arbitrary countable carrier. -/
abbrev Cand := Nat

/-- The signaling states of an `RTCPeerConnection`. -/
inductive SignalingState
  | stable
  | haveLocalOffer
  | haveRemoteOffer
  | haveLocalPranswer
  | haveRemotePranswer
  | closed
  deriving DecidableEq, Repr, Fintype

/-- The `RTCSdpType` union type. -/
inductive SdpType
  | offer
  | answer
  | pranswer
  | rollback
  deriving DecidableEq, Repr

/-- An `RTCSessionDescription`: a type tag plus an SDP payload. -/
structure SessionDescription where
  type : SdpType
  sdp : List Char
  deriving DecidableEq, Repr

/-- A `MediaStreamTrack`, reduced to its `id` (the only field the source
reads). -/
structure MediaStreamTrack where
  id : List Char
  deriving DecidableEq, Repr

/-- A `MediaStream`, reduced to its `id` and the result of
`getVideoTracks()`. -/
structure MediaStream where
  id : List Char
  videoTracks : List MediaStreamTrack
  deriving DecidableEq, Repr

/-! ### `removeFIDFromOffer`

```js
function removeFIDFromOffer(sdp) {
  const n = sdp.indexOf('a=ssrc-group:FID')
  return n > 0 ? sdp.slice(0, n) : sdp
}
```
-/

/-- Index of the first occurrence of `pat` in `s` (`none` when absent):
the semantics of JavaScript `String.prototype.indexOf` for a non-empty
pattern, on the character-list representation. -/
def subIndex (pat : List Char) : List Char → Option Nat
  | [] => if pat <+: ([] : List Char) then some 0 else none
  | c :: t => if pat <+: (c :: t) then some 0 else (subIndex pat t).map (· + 1)

/-- JavaScript `s.indexOf(pat)`: the first-occurrence index, `-1` when
absent. -/
def jsIndexOf (s pat : List Char) : Int :=
  match subIndex pat s with
  | some n => (n : Int)
  | none => -1

/-- The marker searched for by `removeFIDFromOffer`. -/
def fidMarker : List Char := "a=ssrc-group:FID".toList

/-- Function `removeFIDFromOffer` from the source: truncate at the first occurrence of
the FID marker when its index is strictly positive (`n > 0`), else return the
input unchanged (this includes both "absent", where `indexOf` yields `-1`,
and "occurs at index 0"). -/
def removeFIDFromOffer (sdp : List Char) : List Char :=
  let n := jsIndexOf sdp fidMarker
  if 0 < n then sdp.take n.toNat else sdp

theorem subIndex_le_length {pat s : List Char} {n : Nat}
    (h : subIndex pat s = some n) : n ≤ s.length := by
  induction s generalizing n with
  | nil =>
    unfold subIndex at h
    split at h
    · injection h with h; omega
    · exact absurd h (by simp)
  | cons c t ih =>
    unfold subIndex at h
    split at h
    · injection h with h; omega
    · match hm : subIndex pat t with
      | some m =>
        rw [hm] at h
        simp only [Option.map_some'] at h
        cases h
        simpa using Nat.succ_le_succ (ih hm)
      | none => rw [hm] at h; exact absurd h (by simp)

/-- Soundness of `subIndex`: the pattern occurs at the returned index. -/
theorem subIndex_sound {pat s : List Char} {n : Nat}
    (h : subIndex pat s = some n) : pat <+: s.drop n := by
  induction s generalizing n with
  | nil =>
    unfold subIndex at h
    split at h
    · rename_i hpre
      injection h with h
      subst h
      simpa using hpre
    · exact absurd h (by simp)
  | cons c t ih =>
    unfold subIndex at h
    split at h
    · rename_i hpre
      injection h with h
      subst h
      simpa using hpre
    · match hm : subIndex pat t with
      | some m =>
        rw [hm] at h
        simp only [Option.map_some'] at h
        cases h
        simpa using ih hm
      | none => rw [hm] at h; exact absurd h (by simp)

/-- Minimality of `subIndex`: no occurrence strictly before the returned
index. -/
theorem subIndex_min {pat s : List Char} {n : Nat}
    (h : subIndex pat s = some n) : ∀ m, m < n → ¬ pat <+: s.drop m := by
  induction s generalizing n with
  | nil =>
    unfold subIndex at h
    split at h
    · injection h with h; omega
    · exact absurd h (by simp)
  | cons c t ih =>
    unfold subIndex at h
    split at h
    · injection h with h; omega
    · rename_i hnpre
      match hm : subIndex pat t with
      | some k =>
        rw [hm] at h
        simp only [Option.map_some'] at h
        cases h
        intro m hmk
        match m with
        | 0 => simpa using hnpre
        | m' + 1 =>
          simpa using ih hm m' (Nat.lt_of_succ_lt_succ hmk)
      | none => rw [hm] at h; exact absurd h (by simp)

/-- Characterisation of `removeFIDFromOffer` in terms of `subIndex`. -/
theorem removeFID_eq (sdp : List Char) :
    removeFIDFromOffer sdp =
      match subIndex fidMarker sdp with
      | some (n + 1) => sdp.take (n + 1)
      | _ => sdp := by
  unfold removeFIDFromOffer jsIndexOf
  match h : subIndex fidMarker sdp with
  | some 0 => simp
  | some (n + 1) =>
    have : (0 : Int) < ((n + 1 : Nat) : Int) := by positivity
    simp [this]
  | none => simp

/-! ### `getSimulcastInfo`

The source builds one multi-line template literal.  We transcribe it line by
line (the template's lines are joined with a newline character); the stray
apostrophe on the second `cname` line and the uneven trailing commas of the
template are reproduced exactly.
-/

/-- The lines of the simulcast block appended by `getSimulcastInfo`, given
the video stream's id `sid` and the first video track's id `tid`. -/
def simulcastLines (sid tid : List Char) : List (List Char) :=
  [ "a=x-google-flag:conference".toList,
    "a=ssrc-group:SIM 1 2 3".toList,
    "a=ssrc:1 cname:localVideo".toList,
    "a=ssrc:1 msid:".toList ++ sid ++ " ".toList ++ tid ++ ",".toList,
    "a=ssrc:1 mslabel:".toList ++ sid ++ ",".toList,
    "a=ssrc:1 label:".toList ++ tid,
    "a=ssrc:2 cname:localVideo'".toList,
    "a=ssrc:2 msid:".toList ++ sid ++ " ".toList ++ tid ++ ",".toList,
    "a=ssrc:2 mslabel:".toList ++ sid,
    "a=ssrc:2 label:".toList ++ tid,
    "a=ssrc:3 cname:localVideo".toList,
    "a=ssrc:3 msid:".toList ++ sid ++ " ".toList ++ tid ++ ",".toList,
    "a=ssrc:3 mslabel:".toList ++ sid,
    "a=ssrc:3 label:".toList ++ tid ]

/-- Function `getSimulcastInfo` from the source: the empty string when the stream has
no video track, otherwise the fixed-shape block referencing the stream id and
the first video track's id. -/
def getSimulcastInfo (videoStream : MediaStream) : List Char :=
  match videoStream.videoTracks with
  | [] => []
  | t :: _ => List.intercalate ['\n'] (simulcastLines videoStream.id t.id)

/-- Whether `getSimulcastInfo` emits its `logger.warn` diagnostic: exactly
when the stream has no video track. -/
def getSimulcastInfoWarns (videoStream : MediaStream) : Bool :=
  videoStream.videoTracks.isEmpty

/-- The spec's name for the append step of the Mangler: inside
`mangleSdpToAddSimulcast` the source computes `sdp + getSimulcastInfo(stream)`. -/
def appendSimulcastBlock (description : List Char) (localVideoSource : MediaStream) :
    List Char :=
  description ++ getSimulcastInfo localVideoSource

/-! ### `mangleSdpToAddSimulcast` -/

/-- Function `mangleSdpToAddSimulcast` from the source: the identity when the
simulcast flag is unset; otherwise re-wrap with the same type tag and the
payload `removeFIDFromOffer(answer.sdp) + getSimulcastInfo(videoStream)`. -/
def mangleSdpToAddSimulcast (simulcast : Bool) (videoStream : MediaStream)
    (answer : SessionDescription) : SessionDescription :=
  if simulcast then
    { type := answer.type
      sdp := removeFIDFromOffer answer.sdp ++ getSimulcastInfo videoStream }
  else answer

/-! ### `processOffer`

The `RTCPeerConnection` is external; we model the slice of it that
`processOffer` touches: the signaling state and the two descriptions.
`createAnswer` is an oracle for the browser's answer generation, and
`setRemoteDescription` performs the protocol's state transition.
-/

/-- The slice of an `RTCPeerConnection` used by `processOffer`. -/
structure Pc where
  signalingState : SignalingState
  localDescription : Option SessionDescription
  remoteDescription : Option SessionDescription
  deriving DecidableEq, Repr

/-- Modelled browser `setRemoteDescription`: store the description and take
the protocol transition (an offer moves the machine to `have-remote-offer`,
an answer back to `stable`). -/
def setRemoteDescription (pc : Pc) (d : SessionDescription) : Pc :=
  { pc with
    remoteDescription := some d
    signalingState :=
      if d.type = SdpType.offer then SignalingState.haveRemoteOffer
      else SignalingState.stable }

/-- Errors thrown by `processOffer`. -/
inductive PeerErr
  | connectionClosed
  | noLocalDescription
  deriving DecidableEq, Repr

/-- Method `WebRtcPeer.processOffer` from the source.  Note the transcription is
faithful to the source's control flow: the mangled `answer` is computed but
never passed to `setLocalDescription` (there is no such call in the method),
and the returned payload is whatever `localDescription` the connection
already holds. -/
def processOffer (createAnswer : Pc → List Char) (simulcast : Bool)
    (videoStream : MediaStream) (pc : Pc) (sdp : List Char) :
    Except PeerErr (Pc × List Char) :=
  let offer : SessionDescription := { type := SdpType.offer, sdp := sdp }
  if pc.signalingState = SignalingState.closed then
    Except.error PeerErr.connectionClosed
  else
    let pc1 := setRemoteDescription pc offer
    let answer0 : SessionDescription := { type := SdpType.answer, sdp := createAnswer pc1 }
    let _answer := mangleSdpToAddSimulcast simulcast videoStream answer0
    match pc1.localDescription with
    | none => Except.error PeerErr.noLocalDescription
    | some localDescription => Except.ok (pc1, localDescription.sdp)

/-! ### The Signaling Gate (`bufferizeCandidates`)

The gate's own state is its queue; each submission returns a JavaScript
promise.  We give promises explicit identifiers (allocated in submission
order) and keep a map from identifier to settlement state, so that "settles
exactly once / stays pending" is expressible.  The underlying
`pc.addIceCandidate` is an oracle `apply : Cand → Except ApplyErr Unit`.
-/

/-- Failure of the underlying `pc.addIceCandidate` call. -/
abbrev ApplyErr := Nat

/-- How a gate submission's promise can fail. -/
inductive GateErr
  | connectionClosed
  | noRemoteDescription
  | applyFailure (e : ApplyErr)
  deriving DecidableEq, Repr

/-- Settlement state of one submission's promise. -/
inductive PromiseState
  | pending
  | resolved
  | rejected (e : GateErr)
  deriving DecidableEq, Repr

/-- One entry of `candidatesQueue`: the candidate plus (the identifier of)
its `resolve`/`reject` pair. -/
structure Submission where
  candidate : Cand
  pid : Nat
  deriving DecidableEq, Repr

/-- The gate's state: the queue, the promise table, and the next fresh
promise identifier. -/
structure GateState where
  queue : List Submission
  promises : Nat → PromiseState
  nextPid : Nat

/-- The initial gate state: empty queue, every promise pending. -/
def gateInit : GateState :=
  { queue := [], promises := fun _ => PromiseState.pending, nextPid := 0 }

/-- The view of the connection the gate reads: the signaling state and
whether a remote description is set. -/
structure PcView where
  signalingState : SignalingState
  hasRemoteDescription : Bool
  deriving DecidableEq, Repr

/-- Modelled `pc.addIceCandidate(candidate).then(resolve, reject)`: the settlement
the promise receives from the apply outcome. -/
def settled (apply : Cand → Except ApplyErr Unit) (c : Cand) : PromiseState :=
  match apply c with
  | Except.ok _ => PromiseState.resolved
  | Except.error e => PromiseState.rejected (GateErr.applyFailure e)

/-- Point update of the promise table. -/
def setPromise (ps : Nat → PromiseState) (pid : Nat) (st : PromiseState) :
    Nat → PromiseState :=
  fun q => if q = pid then st else ps q

/-- The function returned by `bufferizeCandidates` (the `submit` operation):
switch on the signaling state; reject when closed; apply now (or reject with
`No Remote Description`) when stable; otherwise push onto the queue leaving
the promise pending.  Also returns the promise identifier and the list of
candidates applied immediately (the `pc.addIceCandidate` calls made). -/
def submit (pc : PcView) (apply : Cand → Except ApplyErr Unit) (g : GateState)
    (candidate : Cand) : GateState × Nat × List Cand :=
  let pid := g.nextPid
  match pc.signalingState with
  | SignalingState.closed =>
    ({ g with
        nextPid := pid + 1
        promises := setPromise g.promises pid
          (PromiseState.rejected GateErr.connectionClosed) }, pid, [])
  | SignalingState.stable =>
    if pc.hasRemoteDescription then
      ({ g with
          nextPid := pid + 1
          promises := setPromise g.promises pid (settled apply candidate) },
        pid, [candidate])
    else
      ({ g with
          nextPid := pid + 1
          promises := setPromise g.promises pid
            (PromiseState.rejected GateErr.noRemoteDescription) }, pid, [])
  | _ =>
    ({ g with
        nextPid := pid + 1
        queue := g.queue ++ [{ candidate := candidate, pid := pid }] }, pid, [])

/-- The flush of the queue: each queued submission's promise is settled
according to its own apply outcome. -/
def flushPromises (apply : Cand → Except ApplyErr Unit) (q : List Submission)
    (ps : Nat → PromiseState) : Nat → PromiseState :=
  q.foldl (fun ps s => setPromise ps s.pid (settled apply s.candidate)) ps

/-- The `signalingstatechange` listener from the source: do nothing unless
the connection is now `stable`; otherwise apply every queued candidate (in
queue order, settling each promise individually) and empty the queue.  Also
returns the list of candidates applied. -/
def onsignalingstatechange (pc : PcView) (apply : Cand → Except ApplyErr Unit)
    (g : GateState) : GateState × List Cand :=
  if pc.signalingState ≠ SignalingState.stable then (g, [])
  else
    ({ g with queue := [], promises := flushPromises apply g.queue g.promises },
      g.queue.map (fun s => s.candidate))

/-- An external stimulus to the gate: a caller submits a candidate, or the
connection's signaling state changes (the view carried is the connection's
state at that moment). -/
inductive GateEvent
  | sub (pc : PcView) (candidate : Cand)
  | change (pc : PcView)

/-- One gate step. -/
def gateStep (apply : Cand → Except ApplyErr Unit) (g : GateState) :
    GateEvent → GateState
  | GateEvent.sub pc c => (submit pc apply g c).1
  | GateEvent.change pc => (onsignalingstatechange pc apply g).1

/-- Run the gate over a list of events. -/
def gateRun (apply : Cand → Except ApplyErr Unit) (g : GateState)
    (es : List GateEvent) : GateState :=
  es.foldl (gateStep apply) g

/-- The connection view an event carries. -/
def GateEvent.pcView : GateEvent → PcView
  | GateEvent.sub pc _ => pc
  | GateEvent.change pc => pc

/-! ### Outbound candidate buffering (`WebRtcPeer` constructor)

The constructor's `icecandidate` listener and the `newListener` hook share
`candidatesQueueOut` and the `candidategatheringdone` flag.  A `null`
candidate (modelled as `none`) is the terminal "gathering complete" entry.
The two subscriber-visible events are `icecandidate` and
`candidategatheringdone`.
-/

/-- The two buffered event kinds. -/
inductive EvKind
  | icecandidate
  | candidategatheringdone
  deriving DecidableEq, Repr, BEq

/-- An event emitted to current subscribers by the `icecandidate` listener. -/
inductive Emitted
  | ice (c : Cand)
  | gatheringdone
  deriving DecidableEq, Repr

/-- The peer-constructor state shared by the two closures: the outbound
buffer, the gathering-done flag, and the current listener counts for the two
event kinds. -/
structure OutboundState where
  candidatesQueueOut : List (Option Cand)
  candidategatheringdone : Bool
  nIce : Nat
  nDone : Nat
  deriving DecidableEq, Repr

/-- The state right after construction: empty buffer, flag down, no
subscribers. -/
def outboundInit : OutboundState :=
  { candidatesQueueOut := [], candidategatheringdone := false, nIce := 0, nDone := 0 }

/-- The `icecandidate` listener from the constructor: with at least one
subscriber for either event, emit (a non-null candidate as `icecandidate`, a
null one as `candidategatheringdone` unless already done) and raise the done
flag; with no subscriber and gathering not done, push the candidate (null
included) onto the outbound buffer, the null entry raising the done flag. -/
def onPcIceCandidate (s : OutboundState) (candidate : Option Cand) :
    OutboundState × List Emitted :=
  if s.nIce ≠ 0 ∨ s.nDone ≠ 0 then
    match candidate with
    | some c => ({ s with candidategatheringdone := true }, [Emitted.ice c])
    | none =>
      if ¬ s.candidategatheringdone then
        ({ s with candidategatheringdone := true }, [Emitted.gatheringdone])
      else
        ({ s with candidategatheringdone := true }, [])
  else
    if ¬ s.candidategatheringdone then
      ({ s with
          candidatesQueueOut := s.candidatesQueueOut ++ [candidate]
          candidategatheringdone := candidate.isNone }, [])
    else (s, [])

/-- Registration of a listener for `ev`: the emitter fires `newListener`
first, and the constructor's hook then shifts the whole buffer, invoking the
new listener on exactly the entries whose nullness matches the registered
event (`!candidate === (event === 'candidategatheringdone')`); afterwards the
listener is added.  Returns the entries delivered to the new listener, in
buffer order. -/
def addListener (s : OutboundState) (ev : EvKind) :
    OutboundState × List (Option Cand) :=
  let delivered := s.candidatesQueueOut.filter
    (fun candidate => candidate.isNone == (ev == EvKind.candidategatheringdone))
  ({ s with
      candidatesQueueOut := []
      nIce := s.nIce + (if ev = EvKind.icecandidate then 1 else 0)
      nDone := s.nDone + (if ev = EvKind.candidategatheringdone then 1 else 0) },
    delivered)

/-- Feed a list of gathered candidates to the `icecandidate` listener,
collecting the events emitted to already-present subscribers. -/
def runOutbound (s : OutboundState) : List (Option Cand) →
    OutboundState × List Emitted
  | [] => (s, [])
  | c :: cs =>
    let step := onPcIceCandidate s c
    let rest := runOutbound step.1 cs
    (rest.1, step.2 ++ rest.2)

/-! ### `dispose`

The teardown touches the data channel, the connection, and the local tracks.
Each of those is external and any of the three teardown primitives may
throw; a `DisposeEnv` oracle says which do.  The embedding mirrors the
source's control flow: the two guarded early `return`s (which skip the rest
of the method, the `_dispose` emission included), the `try`/`catch` that
converts any exception into a log entry, and the final
`this.emit('_dispose')` whose handler removes every listener.
-/

/-- States of `RTCDataChannel.readyState`. -/
inductive DcState
  | connecting
  | opened
  | closing
  | closed
  deriving DecidableEq, Repr, Fintype

/-- Modelled `RTCDataChannel.close()`: a no-op on an already closed channel,
otherwise the state becomes `closing` (the transition to `closed` happens
asynchronously, so never within the same synchronous call sequence). -/
def dcClose (st : DcState) : DcState :=
  match st with
  | DcState.closed => DcState.closed
  | _ => DcState.closing

/-- The observable side effects of one `dispose` call. -/
inductive DisposeEffect
  | dcCloseCall
  | tracksStopCall
  | pcCloseCall
  | disposeEmit
  deriving DecidableEq, Repr, Fintype

/-- Which teardown primitive threw. -/
inductive DisposeErr
  | dcCloseErr
  | trackStopErr
  | pcCloseErr
  deriving DecidableEq, Repr, Fintype

/-- Fault oracle: which external teardown primitives throw. -/
structure DisposeEnv where
  dcCloseThrows : Bool
  trackStopThrows : Bool
  pcCloseThrows : Bool
  deriving DecidableEq, Repr, Fintype

/-- The honest environment: no teardown primitive throws (per the DOM
specification none of them does). -/
def honestEnv : DisposeEnv :=
  { dcCloseThrows := false, trackStopThrows := false, pcCloseThrows := false }

/-- The slice of a `WebRtcPeer` that `dispose` touches. -/
structure PeerState where
  dataChannel : Option DcState
  signalingState : SignalingState
  tracksStopped : Bool
  listenersActive : Bool
  deriving DecidableEq, Repr, Fintype

/-- The `try` block of `dispose`: returns the state reached, the effects
performed, whether a guarded early `return` was taken, and the exception (if
any) escaping the block. -/
def disposeTryBlock (env : DisposeEnv) (s : PeerState) :
    PeerState × List DisposeEffect × Bool × Option DisposeErr :=
  match s.dataChannel with
  | some dcSt =>
    if dcSt = DcState.closed then (s, [], true, none)
    else if env.dcCloseThrows then
      (s, [DisposeEffect.dcCloseCall], false, some DisposeErr.dcCloseErr)
    else
      let s1 := { s with dataChannel := some (dcClose dcSt) }
      if s1.signalingState = SignalingState.closed then
        (s1, [DisposeEffect.dcCloseCall], true, none)
      else if env.trackStopThrows then
        (s1, [DisposeEffect.dcCloseCall, DisposeEffect.tracksStopCall], false,
          some DisposeErr.trackStopErr)
      else
        let s2 := { s1 with tracksStopped := true }
        if env.pcCloseThrows then
          (s2, [DisposeEffect.dcCloseCall, DisposeEffect.tracksStopCall,
            DisposeEffect.pcCloseCall], false, some DisposeErr.pcCloseErr)
        else
          ({ s2 with signalingState := SignalingState.closed },
            [DisposeEffect.dcCloseCall, DisposeEffect.tracksStopCall,
              DisposeEffect.pcCloseCall], false, none)
  | none =>
    if s.signalingState = SignalingState.closed then (s, [], true, none)
    else if env.trackStopThrows then
      (s, [DisposeEffect.tracksStopCall], false, some DisposeErr.trackStopErr)
    else
      let s2 := { s with tracksStopped := true }
      if env.pcCloseThrows then
        (s2, [DisposeEffect.tracksStopCall, DisposeEffect.pcCloseCall], false,
          some DisposeErr.pcCloseErr)
      else
        ({ s2 with signalingState := SignalingState.closed },
          [DisposeEffect.tracksStopCall, DisposeEffect.pcCloseCall], false, none)

/-- Method `WebRtcPeer.dispose` from the source: run the `try` block; an early
`return` ends the call there; otherwise any exception is logged (the `catch`)
and `this.emit('_dispose')` runs, whose handler (when listeners are still
attached) releases the video elements and removes all listeners.  The call
itself never propagates an exception, which the return type makes plain:
there is no error component. -/
def dispose (env : DisposeEnv) (s : PeerState) :
    PeerState × List DisposeEffect × List DisposeErr :=
  match disposeTryBlock env s with
  | (s', effs, true, _) => (s', effs, [])
  | (s', effs, false, err) =>
    let log := match err with | some e => [e] | none => []
    ({ s' with listenersActive := false }, effs ++ [DisposeEffect.disposeEmit], log)

/-! ## Claims C5 and C10: `removeFIDFromOffer` -/

/-- If the pattern occurs at no offset of `l`, `subIndex` reports absence. -/
theorem subIndex_eq_none {pat l : List Char} (h : ∀ m, ¬ pat <+: l.drop m) :
    subIndex pat l = none := by
  induction l with
  | nil =>
    unfold subIndex
    rw [if_neg (by simpa using h 0)]
  | cons c t ih =>
    unfold subIndex
    rw [if_neg (by simpa using h 0), ih (fun m => by simpa using h (m + 1))]
    rfl

/-- Truncating at the first occurrence of the FID marker leaves a string with
no occurrence of the marker at all. -/
theorem subIndex_fid_take_eq_none {s : List Char} {n : Nat}
    (h : subIndex fidMarker s = some n) :
    subIndex fidMarker (s.take n) = none := by
  apply subIndex_eq_none
  intro m hpre
  by_cases hm : m < n
  · have h1 : fidMarker <+: (s.drop m).take (n - m) := by
      rwa [List.drop_take] at hpre
    have h2 : fidMarker <+: s.drop m :=
      h1.trans ⟨(s.drop m).drop (n - m), List.take_append_drop _ _⟩
    exact subIndex_min h m hm h2
  · have hlen : (s.take n).length ≤ m := by
      simp only [List.length_take]
      omega
    have hnil : (s.take n).drop m = [] := List.drop_eq_nil_of_le hlen
    rw [hnil] at hpre
    have : fidMarker = [] := by simpa using hpre
    exact absurd this (by decide)

/-- C5 (amended): `removeFIDFromOffer` truncates at the first occurrence of
`a=ssrc-group:FID` only when that occurrence is at a strictly positive
offset; when the marker is absent, or occurs at offset `0`, the input is
returned unchanged. -/
theorem removeFID_amended (s : List Char) :
    (subIndex fidMarker s = none → removeFIDFromOffer s = s) ∧
    (subIndex fidMarker s = some 0 → removeFIDFromOffer s = s) ∧
    (∀ n, subIndex fidMarker s = some n → 0 < n →
      removeFIDFromOffer s = s.take n) := by
  have he := removeFID_eq s
  refine ⟨fun h => ?_, fun h => ?_, fun n h hn => ?_⟩
  · rw [h] at he; exact he
  · rw [h] at he; exact he
  · match n, hn with
    | n + 1, _ => rw [h] at he; exact he

/-- C5 counterexample: on an SDP equal to the marker itself (first occurrence
at offset `0`), the claim demands truncation to the empty prefix, but
`removeFIDFromOffer` (whose guard is `n > 0`, not `n >= 0`) returns the input
unchanged. -/
theorem removeFID_marker_at_zero_counterexample :
    subIndex fidMarker fidMarker = some 0 ∧
    removeFIDFromOffer fidMarker = fidMarker ∧
    fidMarker ≠ fidMarker.take 0 := by decide

/-- Witness for `removeFID_amended` at concrete inputs: a marker at offset 1
is truncated; a marker-free string and a marker at offset 0 are returned
unchanged. -/
theorem removeFID_amended_witness :
    removeFIDFromOffer ("x".toList ++ fidMarker) = ("x".toList ++ fidMarker).take 1 ∧
    removeFIDFromOffer "abc".toList = "abc".toList ∧
    removeFIDFromOffer fidMarker = fidMarker :=
  ⟨(removeFID_amended _).2.2 1 (by decide) (by decide),
   (removeFID_amended _).1 (by decide),
   (removeFID_amended _).2.1 (by decide)⟩

/-- C10: for every input string, `removeFIDFromOffer` returns a prefix of its
input, and it is idempotent — whether the marker is absent, at offset `0`, or
at a positive offset. -/
theorem removeFID_prefix_idempotent (s : List Char) :
    removeFIDFromOffer s <+: s ∧
    removeFIDFromOffer (removeFIDFromOffer s) = removeFIDFromOffer s := by
  match h : subIndex fidMarker s with
  | none =>
    have hs := (removeFID_amended s).1 h
    rw [hs]
    exact ⟨⟨[], List.append_nil s⟩, hs⟩
  | some 0 =>
    have hs := (removeFID_amended s).2.1 h
    rw [hs]
    exact ⟨⟨[], List.append_nil s⟩, hs⟩
  | some (n + 1) =>
    have hs := (removeFID_amended s).2.2 (n + 1) h (Nat.succ_pos n)
    rw [hs]
    constructor
    · exact ⟨s.drop (n + 1), List.take_append_drop _ _⟩
    · exact (removeFID_amended _).1 (subIndex_fid_take_eq_none h)

/-! ## Claim C7: `getSimulcastInfo` / `appendSimulcastBlock` -/

/-- C7: on a stream with no video track the description is returned
unchanged (only the diagnostic is emitted); on a stream with a first video
track, the appended block has exactly one grouping directive
(`a=ssrc-group:SIM 1 2 3`), its twelve `a=ssrc:` lines carry exactly the
layer ids 1,1,1,1,2,2,2,2,3,3,3,3, and each of the three layers has a line
referencing both the stream's id and the first video track's id. -/
theorem simulcast_block_shape (d : List Char) (s : MediaStream) :
    (s.videoTracks = [] →
      appendSimulcastBlock d s = d ∧ getSimulcastInfoWarns s = true) ∧
    (∀ t ts, s.videoTracks = t :: ts →
      getSimulcastInfo s = List.intercalate ['\n'] (simulcastLines s.id t.id) ∧
      (simulcastLines s.id t.id).filter
          (fun l => "a=ssrc-group:".toList.isPrefixOf l)
        = ["a=ssrc-group:SIM 1 2 3".toList] ∧
      ((simulcastLines s.id t.id).filter
          (fun l => "a=ssrc:".toList.isPrefixOf l)).map
          (fun l => (l.drop 7).takeWhile (fun c => c != ' '))
        = ["1".toList, "1".toList, "1".toList, "1".toList,
           "2".toList, "2".toList, "2".toList, "2".toList,
           "3".toList, "3".toList, "3".toList, "3".toList] ∧
      (∀ i ∈ ["1".toList, "2".toList, "3".toList],
        ∃ l ∈ simulcastLines s.id t.id,
          ("a=ssrc:".toList ++ i).isPrefixOf l = true ∧
          s.id <:+: l ∧ t.id <:+: l)) := by
  obtain ⟨sid, vts⟩ := s
  constructor
  · intro h
    simp only at h
    subst h
    exact ⟨by simp [appendSimulcastBlock, getSimulcastInfo], rfl⟩
  · intro t ts h
    simp only at h
    subst h
    refine ⟨rfl, rfl, rfl, ?_⟩
    intro i hi
    simp only [List.mem_cons, List.not_mem_nil, or_false] at hi
    rcases hi with rfl | rfl | rfl
    · refine ⟨"a=ssrc:1 msid:".toList ++ sid ++ " ".toList ++ t.id ++ ",".toList,
        by simp [simulcastLines], rfl, ?_, ?_⟩
      · exact ⟨"a=ssrc:1 msid:".toList, " ".toList ++ t.id ++ ",".toList, by simp⟩
      · exact ⟨"a=ssrc:1 msid:".toList ++ sid ++ " ".toList, ",".toList, by simp⟩
    · refine ⟨"a=ssrc:2 msid:".toList ++ sid ++ " ".toList ++ t.id ++ ",".toList,
        by simp [simulcastLines], rfl, ?_, ?_⟩
      · exact ⟨"a=ssrc:2 msid:".toList, " ".toList ++ t.id ++ ",".toList, by simp⟩
      · exact ⟨"a=ssrc:2 msid:".toList ++ sid ++ " ".toList, ",".toList, by simp⟩
    · refine ⟨"a=ssrc:3 msid:".toList ++ sid ++ " ".toList ++ t.id ++ ",".toList,
        by simp [simulcastLines], rfl, ?_, ?_⟩
      · exact ⟨"a=ssrc:3 msid:".toList, " ".toList ++ t.id ++ ",".toList, by simp⟩
      · exact ⟨"a=ssrc:3 msid:".toList ++ sid ++ " ".toList, ",".toList, by simp⟩

/-- Witness for `simulcast_block_shape`: a track-free stream leaves the
description unchanged; with a video track the grouping directive filter
yields the single SIM line. -/
theorem simulcast_block_shape_witness :
    appendSimulcastBlock "v=0".toList ⟨"S".toList, []⟩ = "v=0".toList ∧
    (simulcastLines "S".toList "T".toList).filter
        (fun l => "a=ssrc-group:".toList.isPrefixOf l)
      = ["a=ssrc-group:SIM 1 2 3".toList] :=
  ⟨((simulcast_block_shape "v=0".toList ⟨"S".toList, []⟩).1 rfl).1,
   ((simulcast_block_shape "v=0".toList
      ⟨"S".toList, [⟨"T".toList⟩]⟩).2 ⟨"T".toList⟩ [] rfl).2.1⟩

/-! ## Claim C8: `mangleSdpToAddSimulcast` -/

/-- C8: with the simulcast flag unset the Mangler returns the description
unchanged; with it set, the result carries exactly the same type tag, only
the SDP payload changing (to the FID-stripped payload plus the simulcast
block). -/
theorem mangle_preserves_type (simulcast : Bool) (videoStream : MediaStream)
    (d : SessionDescription) :
    (simulcast = false → mangleSdpToAddSimulcast simulcast videoStream d = d) ∧
    (simulcast = true →
      (mangleSdpToAddSimulcast simulcast videoStream d).type = d.type ∧
      (mangleSdpToAddSimulcast simulcast videoStream d).sdp =
        removeFIDFromOffer d.sdp ++ getSimulcastInfo videoStream) := by
  constructor
  · intro h; subst h; rfl
  · intro h; subst h; exact ⟨rfl, rfl⟩

/-- Witness for `mangle_preserves_type` at a concrete description. -/
theorem mangle_preserves_type_witness :
    mangleSdpToAddSimulcast false ⟨"S".toList, []⟩
        { type := SdpType.answer, sdp := "v=0".toList }
      = { type := SdpType.answer, sdp := "v=0".toList } ∧
    (mangleSdpToAddSimulcast true ⟨"S".toList, []⟩
        { type := SdpType.answer, sdp := "v=0".toList }).type = SdpType.answer :=
  ⟨(mangle_preserves_type false ⟨"S".toList, []⟩ _).1 rfl,
   ((mangle_preserves_type true ⟨"S".toList, []⟩ _).2 rfl).1⟩

/-! ## Claim C1: `processOffer` -/

/-- C1 (code bug): `processOffer` does reject with ConnectionClosed before
mutating anything when the connection is closed; but on the success path it
never sets the generated (and mangled) answer as the connection's local
description — the mangled answer is a dead store, so with no pre-existing
local description the call fails with `no local description`, and with a
stale one it returns that stale payload (here `"OLD"`), unchanged in the
final state and different from the mangled answer's payload. -/
theorem processOffer_never_sets_local_description :
    processOffer (fun _ => "ANSWER".toList) true ⟨"S".toList, [⟨"T".toList⟩]⟩
        { signalingState := SignalingState.closed, localDescription := none,
          remoteDescription := none } "v=0offer".toList
      = Except.error PeerErr.connectionClosed ∧
    processOffer (fun _ => "ANSWER".toList) true ⟨"S".toList, [⟨"T".toList⟩]⟩
        { signalingState := SignalingState.stable, localDescription := none,
          remoteDescription := none } "v=0offer".toList
      = Except.error PeerErr.noLocalDescription ∧
    processOffer (fun _ => "ANSWER".toList) true ⟨"S".toList, [⟨"T".toList⟩]⟩
        { signalingState := SignalingState.stable,
          localDescription := some { type := SdpType.answer, sdp := "OLD".toList },
          remoteDescription := none } "v=0offer".toList
      = Except.ok
          ({ signalingState := SignalingState.haveRemoteOffer,
             localDescription := some { type := SdpType.answer, sdp := "OLD".toList },
             remoteDescription := some { type := SdpType.offer, sdp := "v=0offer".toList } },
            "OLD".toList) ∧
    "OLD".toList ≠
      (mangleSdpToAddSimulcast true ⟨"S".toList, [⟨"T".toList⟩]⟩
        { type := SdpType.answer, sdp := "ANSWER".toList }).sdp := by
  refine ⟨rfl, rfl, rfl, by decide⟩

/-! ## Claim C4: immediate outcomes of a gate submission -/

/-- C4: a submission while the connection is closed rejects with
ConnectionClosed and does not mutate the queue; while stable without a
remote description it rejects with NoRemoteDescription (queue untouched,
nothing applied); while stable with a remote description the candidate is
applied to the connection now and the promise follows that apply call's own
outcome. -/
theorem gate_submit_immediate (pc : PcView) (apply : Cand → Except ApplyErr Unit)
    (g : GateState) (c : Cand) :
    (pc.signalingState = SignalingState.closed →
      (submit pc apply g c).1.queue = g.queue ∧
      (submit pc apply g c).1.promises (submit pc apply g c).2.1
        = PromiseState.rejected GateErr.connectionClosed ∧
      (submit pc apply g c).2.2 = []) ∧
    (pc.signalingState = SignalingState.stable → pc.hasRemoteDescription = false →
      (submit pc apply g c).1.queue = g.queue ∧
      (submit pc apply g c).1.promises (submit pc apply g c).2.1
        = PromiseState.rejected GateErr.noRemoteDescription ∧
      (submit pc apply g c).2.2 = []) ∧
    (pc.signalingState = SignalingState.stable → pc.hasRemoteDescription = true →
      (submit pc apply g c).2.2 = [c] ∧
      (apply c = Except.ok () →
        (submit pc apply g c).1.promises (submit pc apply g c).2.1
          = PromiseState.resolved) ∧
      (∀ e, apply c = Except.error e →
        (submit pc apply g c).1.promises (submit pc apply g c).2.1
          = PromiseState.rejected (GateErr.applyFailure e))) := by
  obtain ⟨st, rd⟩ := pc
  refine ⟨fun h => ?_, fun h h' => ?_, fun h h' => ?_⟩
  · simp only at h
    subst h
    refine ⟨rfl, ?_, rfl⟩
    simp [submit, setPromise]
  · simp only at h h'
    subst h
    subst h'
    refine ⟨rfl, ?_, rfl⟩
    simp [submit, setPromise]
  · simp only at h h'
    subst h
    subst h'
    refine ⟨rfl, fun hok => ?_, fun e herr => ?_⟩
    · simp [submit, setPromise, settled, hok]
    · simp [submit, setPromise, settled, herr]

/-- Witness for `gate_submit_immediate` at concrete inputs. -/
theorem gate_submit_immediate_witness :
    (submit ⟨SignalingState.closed, false⟩ (fun _ => Except.ok ()) gateInit 7).1.queue = [] ∧
    (submit ⟨SignalingState.closed, false⟩ (fun _ => Except.ok ()) gateInit 7).1.promises 0
      = PromiseState.rejected GateErr.connectionClosed ∧
    (submit ⟨SignalingState.stable, false⟩ (fun _ => Except.ok ()) gateInit 7).1.promises 0
      = PromiseState.rejected GateErr.noRemoteDescription ∧
    (submit ⟨SignalingState.stable, true⟩ (fun _ => Except.ok ()) gateInit 7).1.promises 0
      = PromiseState.resolved := by
  refine ⟨?_, ?_, ?_, ?_⟩
  · exact ((gate_submit_immediate ⟨SignalingState.closed, false⟩
      (fun _ => Except.ok ()) gateInit 7).1 rfl).1
  · exact ((gate_submit_immediate ⟨SignalingState.closed, false⟩
      (fun _ => Except.ok ()) gateInit 7).1 rfl).2.1
  · exact ((gate_submit_immediate ⟨SignalingState.stable, false⟩
      (fun _ => Except.ok ()) gateInit 7).2.1 rfl rfl).2.1
  · exact ((gate_submit_immediate ⟨SignalingState.stable, true⟩
      (fun _ => Except.ok ()) gateInit 7).2.2 rfl rfl).2.1 rfl

/-! ## Claim C2: queueing and the FIFO flush on `stable` -/

/-- A promise identifier not occurring in the queue is untouched by the
flush. -/
theorem flushPromises_not_mem (apply : Cand → Except ApplyErr Unit)
    (q : List Submission) (pid : Nat) :
    ∀ ps : Nat → PromiseState, pid ∉ q.map Submission.pid →
      flushPromises apply q ps pid = ps pid := by
  induction q with
  | nil => intro ps _; rfl
  | cons x q ih =>
    intro ps h
    simp only [List.map_cons, List.mem_cons] at h
    push_neg at h
    unfold flushPromises
    rw [List.foldl_cons]
    have := ih (setPromise ps x.pid (settled apply x.candidate)) h.2
    unfold flushPromises at this
    rw [this]
    unfold setPromise
    rw [if_neg h.1]

/-- With pairwise distinct promise identifiers, the flush settles every
queued submission according to its own apply outcome. -/
theorem flushPromises_settles (apply : Cand → Except ApplyErr Unit)
    (q : List Submission) (hnd : (q.map Submission.pid).Nodup) :
    ∀ ps : Nat → PromiseState, ∀ s ∈ q,
      flushPromises apply q ps s.pid = settled apply s.candidate := by
  induction q with
  | nil => intro ps s hs; exact absurd hs (by simp)
  | cons x q ih =>
    intro ps s hs
    simp only [List.map_cons, List.nodup_cons] at hnd
    unfold flushPromises
    rw [List.foldl_cons]
    rcases List.mem_cons.mp hs with rfl | hs'
    · have := flushPromises_not_mem apply q s.pid
        (setPromise ps s.pid (settled apply s.candidate)) hnd.1
      unfold flushPromises at this
      rw [this]
      unfold setPromise
      rw [if_pos rfl]
    · have := ih hnd.2 (setPromise ps x.pid (settled apply x.candidate)) s hs'
      unfold flushPromises at this
      rw [this]

/-- C2: while the connection is in a transitional state (neither stable nor
closed) a submission is appended to the queue, nothing is applied and the
promise table is untouched (the new future stays pending); on any
signaling-state change landing in `stable` the whole queue is applied to the
connection in FIFO order, the queue is emptied with the same flush, each
queued promise settling per its own apply outcome (no failure blocking the
others, since every queued candidate appears in the applied list); and a
second flush immediately after applies nothing. -/
theorem gate_flush_on_stable (pc pcS : PcView) (apply : Cand → Except ApplyErr Unit)
    (g : GateState) (c : Cand) :
    (pc.signalingState ≠ SignalingState.stable →
     pc.signalingState ≠ SignalingState.closed →
      (submit pc apply g c).1.queue
        = g.queue ++ [{ candidate := c, pid := g.nextPid }] ∧
      (submit pc apply g c).1.promises = g.promises ∧
      (submit pc apply g c).2.2 = []) ∧
    (pcS.signalingState = SignalingState.stable →
      (onsignalingstatechange pcS apply g).2
        = g.queue.map (fun s => s.candidate) ∧
      (onsignalingstatechange pcS apply g).1.queue = [] ∧
      ((g.queue.map Submission.pid).Nodup →
        ∀ s ∈ g.queue,
          (onsignalingstatechange pcS apply g).1.promises s.pid
            = settled apply s.candidate) ∧
      (onsignalingstatechange pcS apply
          (onsignalingstatechange pcS apply g).1).2 = []) := by
  constructor
  · intro h1 h2
    obtain ⟨st, rd⟩ := pc
    simp only at h1 h2
    cases st with
    | stable => exact absurd rfl h1
    | closed => exact absurd rfl h2
    | haveLocalOffer => exact ⟨rfl, rfl, rfl⟩
    | haveRemoteOffer => exact ⟨rfl, rfl, rfl⟩
    | haveLocalPranswer => exact ⟨rfl, rfl, rfl⟩
    | haveRemotePranswer => exact ⟨rfl, rfl, rfl⟩
  · intro h
    have hne : ¬ pcS.signalingState ≠ SignalingState.stable := by simp [h]
    refine ⟨?_, ?_, ?_, ?_⟩
    · simp [onsignalingstatechange, hne]
    · simp [onsignalingstatechange, hne]
    · intro hnd s hs
      simp only [onsignalingstatechange, if_neg hne]
      exact flushPromises_settles apply g.queue hnd g.promises s hs
    · simp [onsignalingstatechange, hne]

/-- Witness for `gate_flush_on_stable`: a candidate queued during
`have-remote-offer`; a two-element queue flushed on reaching `stable`, the
second promise resolving. -/
theorem gate_flush_on_stable_witness :
    (submit ⟨SignalingState.haveRemoteOffer, false⟩ (fun _ => Except.ok ())
        gateInit 5).1.queue = [{ candidate := 5, pid := 0 }] ∧
    (onsignalingstatechange ⟨SignalingState.stable, true⟩ (fun _ => Except.ok ())
        { queue := [{ candidate := 5, pid := 0 }, { candidate := 6, pid := 1 }],
          promises := fun _ => PromiseState.pending, nextPid := 2 }).2 = [5, 6] ∧
    (onsignalingstatechange ⟨SignalingState.stable, true⟩ (fun _ => Except.ok ())
        { queue := [{ candidate := 5, pid := 0 }, { candidate := 6, pid := 1 }],
          promises := fun _ => PromiseState.pending, nextPid := 2 }).1.promises 1
      = PromiseState.resolved := by
  refine ⟨?_, ?_, ?_⟩
  · exact ((gate_flush_on_stable ⟨SignalingState.haveRemoteOffer, false⟩
      ⟨SignalingState.stable, true⟩ (fun _ => Except.ok ()) gateInit 5).1
      (by decide) (by decide)).1
  · exact ((gate_flush_on_stable ⟨SignalingState.haveRemoteOffer, false⟩
      ⟨SignalingState.stable, true⟩ (fun _ => Except.ok ())
      { queue := [{ candidate := 5, pid := 0 }, { candidate := 6, pid := 1 }],
        promises := fun _ => PromiseState.pending, nextPid := 2 } 5).2 rfl).1
  · exact ((gate_flush_on_stable ⟨SignalingState.haveRemoteOffer, false⟩
      ⟨SignalingState.stable, true⟩ (fun _ => Except.ok ())
      { queue := [{ candidate := 5, pid := 0 }, { candidate := 6, pid := 1 }],
        promises := fun _ => PromiseState.pending, nextPid := 2 } 5).2 rfl).2.2.1
      (by decide) { candidate := 6, pid := 1 } (by decide)

/-! ## Claim C3: no settlement on close -/

/-- C3 counterexample: a candidate submitted during `have-remote-offer` is
queued with a pending future; after the connection transitions to `closed`
the flush handler does nothing (the state is not `stable`), so the queued
submission's future is still pending — closing does not reject pending
queued submissions. -/
theorem gate_close_leaves_queued_pending_counterexample :
    (gateRun (fun _ => Except.ok ()) gateInit
        [GateEvent.sub ⟨SignalingState.haveRemoteOffer, false⟩ 5,
         GateEvent.change ⟨SignalingState.closed, false⟩]).promises 0
      = PromiseState.pending ∧
    (gateRun (fun _ => Except.ok ()) gateInit
        [GateEvent.sub ⟨SignalingState.haveRemoteOffer, false⟩ 5,
         GateEvent.change ⟨SignalingState.closed, false⟩]).queue
      = [{ candidate := 5, pid := 0 }] :=
  ⟨rfl, rfl⟩

/-- C3 (amended): a submission made while the connection is not stable is
settled exactly once if (and only when) the connection later reaches
`stable`, where the flush settles every queued submission; but closing the
connection settles nothing already queued — under any sequence of gate
events during which the connection stays `closed`, every already-allocated
promise keeps its state (in particular a pending one stays pending forever);
only submissions made while closed fail fast, rejected with
ConnectionClosed and without touching the queue. -/
theorem gate_close_no_settlement_amended (apply : Cand → Except ApplyErr Unit) :
    (∀ (es : List GateEvent) (g : GateState) (p : Nat),
      (∀ e ∈ es, (GateEvent.pcView e).signalingState = SignalingState.closed) →
      p < g.nextPid →
      (gateRun apply g es).promises p = g.promises p) ∧
    (∀ (pc : PcView) (g : GateState) (c : Cand),
      pc.signalingState = SignalingState.closed →
      (submit pc apply g c).1.promises (submit pc apply g c).2.1
        = PromiseState.rejected GateErr.connectionClosed ∧
      (submit pc apply g c).1.queue = g.queue) ∧
    (∀ (pc : PcView) (g : GateState),
      pc.signalingState = SignalingState.stable →
      (g.queue.map Submission.pid).Nodup →
      ∀ s ∈ g.queue,
        (onsignalingstatechange pc apply g).1.promises s.pid
          = settled apply s.candidate) := by
  refine ⟨?_, ?_, ?_⟩
  · intro es
    induction es with
    | nil => intro g p _ _; rfl
    | cons e es ih =>
      intro g p hall hp
      have he : (GateEvent.pcView e).signalingState = SignalingState.closed :=
        hall e (List.mem_cons_self e es)
      have hall' : ∀ e' ∈ es, (GateEvent.pcView e').signalingState = SignalingState.closed :=
        fun e' h' => hall e' (List.mem_cons_of_mem e h')
      cases e with
      | sub pc c =>
        obtain ⟨st, rd⟩ := pc
        simp only [GateEvent.pcView] at he
        subst he
        have hstep : gateRun apply g (GateEvent.sub ⟨SignalingState.closed, rd⟩ c :: es)
            = gateRun apply (gateStep apply g (GateEvent.sub ⟨SignalingState.closed, rd⟩ c)) es := by
          unfold gateRun
          rw [List.foldl_cons]
        rw [hstep]
        have hg' := ih (gateStep apply g (GateEvent.sub ⟨SignalingState.closed, rd⟩ c)) p hall'
          (by simp only [gateStep, submit]; omega)
        rw [hg']
        simp only [gateStep, submit]
        unfold setPromise
        rw [if_neg (by omega)]
      | change pc =>
        obtain ⟨st, rd⟩ := pc
        simp only [GateEvent.pcView] at he
        subst he
        have hstep : gateRun apply g (GateEvent.change ⟨SignalingState.closed, rd⟩ :: es)
            = gateRun apply (gateStep apply g (GateEvent.change ⟨SignalingState.closed, rd⟩)) es := by
          unfold gateRun
          rw [List.foldl_cons]
        rw [hstep]
        have hfix : gateStep apply g (GateEvent.change ⟨SignalingState.closed, rd⟩) = g := by
          simp [gateStep, onsignalingstatechange]
        rw [hfix]
        exact ih g p hall' hp
  · intro pc g c h
    obtain ⟨st, rd⟩ := pc
    simp only at h
    subst h
    refine ⟨?_, rfl⟩
    simp [submit, setPromise]
  · intro pc g h hnd s hs
    have hne : ¬ pc.signalingState ≠ SignalingState.stable := by simp [h]
    simp only [onsignalingstatechange, if_neg hne]
    exact flushPromises_settles apply g.queue hnd g.promises s hs

/-- Witness for `gate_close_no_settlement_amended`: a queued promise survives
a close transition untouched (still pending), and the same queue flushed at
`stable` resolves. -/
theorem gate_close_no_settlement_amended_witness :
    (gateRun (fun _ => Except.ok ())
        { queue := [{ candidate := 5, pid := 0 }],
          promises := fun _ => PromiseState.pending, nextPid := 1 }
        [GateEvent.change ⟨SignalingState.closed, false⟩]).promises 0
      = PromiseState.pending ∧
    (onsignalingstatechange ⟨SignalingState.stable, true⟩ (fun _ => Except.ok ())
        { queue := [{ candidate := 5, pid := 0 }],
          promises := fun _ => PromiseState.pending, nextPid := 1 }).1.promises 0
      = PromiseState.resolved := by
  constructor
  · exact (gate_close_no_settlement_amended (fun _ => Except.ok ())).1
      [GateEvent.change ⟨SignalingState.closed, false⟩]
      { queue := [{ candidate := 5, pid := 0 }],
        promises := fun _ => PromiseState.pending, nextPid := 1 } 0
      (by intro e he
          simp only [List.mem_cons, List.not_mem_nil, or_false] at he
          subst he
          rfl)
      (by decide)
  · exact (gate_close_no_settlement_amended (fun _ => Except.ok ())).2.2
      ⟨SignalingState.stable, true⟩
      { queue := [{ candidate := 5, pid := 0 }],
        promises := fun _ => PromiseState.pending, nextPid := 1 }
      rfl (by decide) { candidate := 5, pid := 0 } (by decide)

/-! ## Claim C6: pre-subscription buffering and the drain on first
registration -/

/-- Running the listener over a concatenation composes the runs. -/
theorem runOutbound_append (s : OutboundState) (xs ys : List (Option Cand)) :
    runOutbound s (xs ++ ys)
      = ((runOutbound (runOutbound s xs).1 ys).1,
         (runOutbound s xs).2 ++ (runOutbound (runOutbound s xs).1 ys).2) := by
  induction xs generalizing s with
  | nil => simp [runOutbound]
  | cons x xs ih =>
    rw [List.cons_append]
    rw [show runOutbound s (x :: (xs ++ ys))
        = ((runOutbound (onPcIceCandidate s x).1 (xs ++ ys)).1,
           (onPcIceCandidate s x).2
             ++ (runOutbound (onPcIceCandidate s x).1 (xs ++ ys)).2) from rfl]
    rw [ih (onPcIceCandidate s x).1]
    conv_rhs => rw [show runOutbound s (x :: xs)
        = ((runOutbound (onPcIceCandidate s x).1 xs).1,
           (onPcIceCandidate s x).2
             ++ (runOutbound (onPcIceCandidate s x).1 xs).2) from rfl]
    simp [List.append_assoc]

/-- Feeding non-null candidates with no subscriber present appends them to
the outbound buffer, emits nothing, and leaves the done flag down. -/
theorem runOutbound_buffers (cs : List Cand) :
    ∀ q : List (Option Cand),
      runOutbound
        { candidatesQueueOut := q, candidategatheringdone := false,
          nIce := 0, nDone := 0 } (cs.map some)
      = ({ candidatesQueueOut := q ++ cs.map some, candidategatheringdone := false,
           nIce := 0, nDone := 0 }, []) := by
  induction cs with
  | nil => intro q; simp [runOutbound]
  | cons c cs ih =>
    intro q
    simp only [List.map_cons, runOutbound, onPcIceCandidate]
    rw [if_neg (by simp)]
    rw [if_pos (by simp)]
    simp only [Option.isNone_some]
    rw [ih (q ++ [some c])]
    simp

/-- Filtering the nullness test over buffered non-null candidates keeps all
of them or none, according to the registered event kind. -/
theorem filter_isNone_map_some (P : Bool) (cs : List Cand) :
    (cs.map some).filter (fun c : Option Cand => c.isNone == P)
      = if P then [] else cs.map some := by
  induction cs with
  | nil => cases P <;> simp
  | cons c cs ih => cases P <;> simp_all [List.filter]

/-- The final state of feeding n candidates and the terminal null before any
subscriber exists. -/
theorem runOutbound_full (cs : List Cand) :
    runOutbound outboundInit (cs.map some ++ [none])
      = ({ candidatesQueueOut := cs.map some ++ [none], candidategatheringdone := true,
           nIce := 0, nDone := 0 }, []) := by
  rw [runOutbound_append]
  have hb := runOutbound_buffers cs []
  rw [show outboundInit
      = { candidatesQueueOut := ([] : List (Option Cand)), candidategatheringdone := false,
          nIce := 0, nDone := 0 } from rfl]
  rw [hb]
  simp only [List.nil_append]
  simp [runOutbound, onPcIceCandidate]

/-- C6: candidates gathered before any subscriber exists (n of them followed
by the terminal null) are appended to the outbound buffer in arrival order
with nothing emitted to anyone; the first registration for either event
drains the buffer, delivering to the new listener exactly the entries
matching its event kind (the non-null candidates when registering for
`icecandidate`, the single null terminal when registering for
`candidategatheringdone`), in original arrival order; the drain empties the
buffer, so no later registration is ever replayed anything. -/
theorem outbound_buffer_replay (cs : List Cand) (k : EvKind) :
    ((runOutbound outboundInit (cs.map some ++ [none])).1.candidatesQueueOut
        = cs.map some ++ [none] ∧
      (runOutbound outboundInit (cs.map some ++ [none])).2 = []) ∧
    (k = EvKind.icecandidate →
      (addListener (runOutbound outboundInit (cs.map some ++ [none])).1 k).2
        = cs.map some) ∧
    (k = EvKind.candidategatheringdone →
      (addListener (runOutbound outboundInit (cs.map some ++ [none])).1 k).2
        = [none]) ∧
    (addListener (runOutbound outboundInit (cs.map some ++ [none])).1 k).1.candidatesQueueOut
      = [] ∧
    (∀ k', (addListener
        (addListener (runOutbound outboundInit (cs.map some ++ [none])).1 k).1 k').2
      = []) := by
  have hrun := runOutbound_full cs
  refine ⟨⟨by rw [hrun], by rw [hrun]⟩, fun hk => ?_, fun hk => ?_, ?_, fun k' => ?_⟩
  · subst hk
    rw [hrun]
    simp only [addListener, List.filter_append,
      show (EvKind.icecandidate == EvKind.candidategatheringdone) = false from rfl]
    rw [filter_isNone_map_some false cs]
    simp [List.filter]
  · subst hk
    rw [hrun]
    simp only [addListener, List.filter_append,
      show (EvKind.candidategatheringdone == EvKind.candidategatheringdone) = true from rfl]
    rw [filter_isNone_map_some true cs]
    simp [List.filter]
  · rw [hrun]
    rfl
  · rw [hrun]
    rfl

/-- Witness for `outbound_buffer_replay`: three candidates and the terminal
null, replayed to a first `icecandidate` subscriber and (in the alternative
first-registration) to a `candidategatheringdone` subscriber. -/
theorem outbound_buffer_replay_witness :
    (addListener (runOutbound outboundInit [some 1, some 2, some 3, none]).1
        EvKind.icecandidate).2 = [some 1, some 2, some 3] ∧
    (addListener (runOutbound outboundInit [some 1, some 2, some 3, none]).1
        EvKind.candidategatheringdone).2 = [none] :=
  ⟨(outbound_buffer_replay [1, 2, 3] EvKind.icecandidate).2.1 rfl,
   (outbound_buffer_replay [1, 2, 3] EvKind.candidategatheringdone).2.2.1 rfl⟩

/-! ## Claim C9: `dispose` -/

/-- C9 counterexample: starting from an open data channel and an open
connection, the second of two successive `dispose()` calls is not a true
no-op performing no further closes — it invokes the data channel's `close()`
again, since after the first call the channel's `readyState` is `closing`,
not `closed`, so the `readyState === 'closed'` guard does not fire. -/
theorem dispose_second_call_close_counterexample :
    DisposeEffect.dcCloseCall ∈
      (dispose honestEnv
        (dispose honestEnv
          { dataChannel := some DcState.opened,
            signalingState := SignalingState.stable,
            tracksStopped := false, listenersActive := true }).1).2.1 := by
  decide

/-- C9 (amended): `dispose` never propagates an exception — any error raised
by the teardown primitives inside the `try` block ends up in the log and the
call returns normally for every state and fault pattern (the return type has
no error component); and, with teardown primitives that do not throw (as the
DOM specifies), a second `dispose` in immediate succession surfaces no
error, leaves the peer state unchanged, closes no connection, stops no
tracks, and emits no `_dispose` — though, when a data channel is present, it
does re-invoke the channel's (no-op) `close()` while the channel is still
`closing`. -/
theorem dispose_never_throws_second_call_amended :
    (∀ (env : DisposeEnv) (s : PeerState) (e : DisposeErr),
      (disposeTryBlock env s).2.2.2 = some e → (dispose env s).2.2 = [e]) ∧
    (∀ s : PeerState,
      (dispose honestEnv s).2.2 = [] ∧
      (dispose honestEnv (dispose honestEnv s).1).1 = (dispose honestEnv s).1 ∧
      (dispose honestEnv (dispose honestEnv s).1).2.2 = [] ∧
      DisposeEffect.pcCloseCall ∉ (dispose honestEnv (dispose honestEnv s).1).2.1 ∧
      DisposeEffect.tracksStopCall ∉ (dispose honestEnv (dispose honestEnv s).1).2.1 ∧
      DisposeEffect.disposeEmit ∉ (dispose honestEnv (dispose honestEnv s).1).2.1) := by
  constructor
  · set_option maxRecDepth 8192 in decide
  · set_option maxRecDepth 8192 in decide

/-- Witness for `dispose_never_throws_second_call_amended`: a throwing data
channel close is logged (not propagated), and the second dispose on a
concrete peer leaves the state unchanged. -/
theorem dispose_never_throws_second_call_amended_witness :
    (dispose
        { dcCloseThrows := true, trackStopThrows := false, pcCloseThrows := false }
        { dataChannel := some DcState.opened, signalingState := SignalingState.stable,
          tracksStopped := false, listenersActive := true }).2.2
      = [DisposeErr.dcCloseErr] ∧
    (dispose honestEnv
        (dispose honestEnv
          { dataChannel := some DcState.opened, signalingState := SignalingState.stable,
            tracksStopped := false, listenersActive := true }).1).1
      = (dispose honestEnv
          { dataChannel := some DcState.opened, signalingState := SignalingState.stable,
            tracksStopped := false, listenersActive := true }).1 :=
  ⟨dispose_never_throws_second_call_amended.1
      { dcCloseThrows := true, trackStopThrows := false, pcCloseThrows := false }
      { dataChannel := some DcState.opened, signalingState := SignalingState.stable,
        tracksStopped := false, listenersActive := true }
      DisposeErr.dcCloseErr (by decide),
   (dispose_never_throws_second_call_amended.2
      { dataChannel := some DcState.opened, signalingState := SignalingState.stable,
        tracksStopped := false, listenersActive := true }).2.1⟩
